import Mathlib

/-!
# Verification of the `arduino_car_ai` simulated environment

Shallow embedding of `src/arduino_car_ai/environment.py` (class
`CarSimulatorEnv`) and of the deployment-side action mapping in
`src/arduino_car_ai/arduino_controller.py` (class `ArduinoAIController`).

Modelling conventions:
* Python floats are idealised as rationals (`ℚ`); the float literals
  `0.1`, `0.2`, `0.5` of the source denote the exact rationals here.
* `math.cos` / `math.sin` / `math.sqrt` and the heading-angle arithmetic
  (`car_angle ± 0.1`, offsets `±math.pi/3`) are modelled by an abstract
  trigonometry oracle `TrigModel`: a carrier type `A` of angles together
  with `cos`, `sin`, `sqrt` into `ℚ` satisfying the two identities the
  source relies on (`cos² + sin² = 1` and `sqrt (q·q) = q` for `0 ≤ q`).
  Every theorem is proved for an arbitrary oracle, and a concrete
  computable oracle (`trivTrig`) is provided for evaluation.
* `pygame.Rect` stores integer coordinates; construction from floats
  truncates toward zero (`truncZ`).  `colliderect` is the pygame overlap
  test (strict inequalities on the min/max-normalised edges; every
  rectangle in this program has positive width and height).
* The random draws of the source (`random.uniform` for the reset heading,
  `random.randint` for obstacle placement) are modelled as explicit
  parameters, as the spec requires seedable randomness.
* A Python method call either returns or raises; `step` in this program
  contains no raise path, so its embedding returns `Except.ok` of the
  translated body (`stepBody`).
-/

set_option maxRecDepth 100000

namespace CarSim

/-- Axis-aligned rectangle with integer coordinates, as `pygame.Rect`. -/
structure Rect where
  x : ℤ
  y : ℤ
  w : ℤ
  h : ℤ
deriving DecidableEq

/-- `pygame.Rect.colliderect`: true when the two rectangles overlap with
positive area (pygame normalises each edge pair with min/max and compares
strictly). -/
def Rect.colliderect (a b : Rect) : Bool :=
  decide (min a.x (a.x + a.w) < max b.x (b.x + b.w) ∧
          min b.x (b.x + b.w) < max a.x (a.x + a.w) ∧
          min a.y (a.y + a.h) < max b.y (b.y + b.h) ∧
          min b.y (b.y + b.h) < max a.y (a.y + a.h))

/-- Conversion of a Python float to the integer stored by `pygame.Rect`:
truncation toward zero (C `int` cast), on the rational idealisation. -/
def truncZ (q : ℚ) : ℤ := Int.tdiv q.num q.den

/-- `self.width = 800` -/
def width : ℤ := 800

/-- `self.height = 600` -/
def height : ℤ := 600

/-- `self.car_size = 30` -/
def car_size : ℤ := 30

/-- `self.sensor_range = 200` -/
def sensor_range : ℕ := 200

/-- Abstract model of the real-valued trigonometry the source uses on
heading angles.  `A` is the type of angle values; `cos`, `sin`, `sqrt`
play the roles of `math.cos`, `math.sin`, `math.sqrt`; `add`/`sub` are
angle arithmetic; `ofRat` embeds the numeric literal `0.1`; `piDiv3` is
the constant `math.pi / 3`.  The two identity fields record the facts
about real trigonometry that the source's arithmetic relies on. -/
structure TrigModel (A : Type) where
  cos : A → ℚ
  sin : A → ℚ
  sqrt : ℚ → ℚ
  add : A → A → A
  sub : A → A → A
  ofRat : ℚ → A
  piDiv3 : A
  pyth : ∀ a, cos a * cos a + sin a * sin a = 1
  sqrt_sq : ∀ q : ℚ, 0 ≤ q → sqrt (q * q) = q

/-- The mutable state of `CarSimulatorEnv` (the fields assigned in
`__init__`/`reset` and mutated by `step`). -/
structure EnvState (A : Type) where
  car_x : ℚ
  car_y : ℚ
  car_angle : A
  car_speed : ℤ
  car_velocity : ℚ
  steps : ℕ
  total_distance : ℚ
  last_position : ℚ × ℚ
  stationary_steps : ℕ
  obstacles : List Rect

variable {A : Type}

/-- `generate_obstacles`: four border walls followed by the randomly
placed interior rectangles (the `random.randint` draws are passed in). -/
def generate_obstacles (randomObstacles : List Rect) : List Rect :=
  [⟨0, 0, width, 10⟩, ⟨0, 0, 10, height⟩,
   ⟨0, height - 10, width, 10⟩, ⟨width - 10, 0, 10, height⟩] ++ randomObstacles

/-- One probe of the ray march in `cast_ray` at distance `dist`: true when
the sample point leaves the arena or lies inside some obstacle. -/
def rayHit (T : TrigModel A) (e : EnvState A) (angle : A) (dist : ℕ) : Bool :=
  let x : ℚ := e.car_x + (dist : ℚ) * T.cos angle
  let y : ℚ := e.car_y + (dist : ℚ) * T.sin angle
  if x < 0 ∨ x > (width : ℚ) ∨ y < 0 ∨ y > (height : ℚ) then true
  else
    let point : Rect := ⟨truncZ (x - 1), truncZ (y - 1), 2, 2⟩
    e.obstacles.any (fun obstacle => obstacle.colliderect point)

/-- `cast_ray`: march `dist = 1, …, sensor_range - 1`; return the first
hit distance, else `sensor_range`. -/
def cast_ray (T : TrigModel A) (e : EnvState A) (angle : A) : ℕ :=
  ((List.range' 1 (sensor_range - 1)).find? (fun dist => rayHit T e angle dist)).getD
    sensor_range

/-- `get_distances`: the three rays at offsets `-π/3, 0, +π/3` from the
heading, each reading `min(distance, 200) / 200.0`. -/
def get_distances (T : TrigModel A) (e : EnvState A) : List ℚ :=
  [T.sub e.car_angle T.piDiv3, e.car_angle, T.add e.car_angle T.piDiv3].map
    (fun angle => ((min (cast_ray T e angle) 200 : ℕ) : ℚ) / 200)

/-- `get_state`: the three normalised distances followed by
`car_speed / 5.0`. -/
def get_state (T : TrigModel A) (e : EnvState A) : List ℚ :=
  get_distances T e ++ [(e.car_speed : ℚ) / 5]

/-- `reset`: car recentred at `(width // 2, height // 2)` with the drawn
heading and speed level 3; episode counters zeroed; obstacles untouched;
returns the new state paired with `get_state`. -/
def reset (T : TrigModel A) (e : EnvState A) (heading : A) : EnvState A × List ℚ :=
  let e2 : EnvState A :=
    { e with
      car_x := ((width / 2 : ℤ) : ℚ)
      car_y := ((height / 2 : ℤ) : ℚ)
      car_angle := heading
      car_speed := 3
      car_velocity := 0
      steps := 0
      total_distance := 0
      last_position := (((width / 2 : ℤ) : ℚ), ((height / 2 : ℤ) : ℚ))
      stationary_steps := 0 }
  (e2, get_state T e2)

/-- `__init__`: generate the obstacles once, then `reset`.  The pygame
initialisation is display-only and is not modelled. -/
def initEnv (T : TrigModel A) (randomObstacles : List Rect) (heading : A) :
    EnvState A × List ℚ :=
  reset T
    { car_x := 0, car_y := 0, car_angle := heading, car_speed := 0,
      car_velocity := 0, steps := 0, total_distance := 0,
      last_position := (0, 0), stationary_steps := 0,
      obstacles := generate_obstacles randomObstacles }
    heading

/-- `check_collision`: the car's bounding square against the arena
boundary, then against every obstacle rectangle. -/
def check_collision (e : EnvState A) : Bool :=
  let car_rect : Rect :=
    ⟨truncZ (e.car_x - ((car_size / 2 : ℤ) : ℚ)),
     truncZ (e.car_y - ((car_size / 2 : ℤ) : ℚ)), car_size, car_size⟩
  if e.car_x < ((car_size / 2 : ℤ) : ℚ) ∨
     e.car_x > ((width - car_size / 2 : ℤ) : ℚ) ∨
     e.car_y < ((car_size / 2 : ℤ) : ℚ) ∨
     e.car_y > ((height - car_size / 2 : ℤ) : ℚ) then true
  else e.obstacles.any (fun obstacle => car_rect.colliderect obstacle)

/-- The action-dispatch block of `step` (lines 122–134): `0` forward,
`1` rotate left, `2` rotate right, `3..7` select speed level `action - 2`;
any other action falls through every branch and changes nothing. -/
def applyAction (T : TrigModel A) (e : EnvState A) (action : ℤ) : EnvState A :=
  if action = 0 then
    { e with car_velocity := 2 * (e.car_speed : ℚ) }
  else if action = 1 then
    { e with car_angle := T.sub e.car_angle (T.ofRat 0.1),
             car_velocity := 0.5 * (e.car_speed : ℚ) }
  else if action = 2 then
    { e with car_angle := T.add e.car_angle (T.ofRat 0.1),
             car_velocity := 0.5 * (e.car_speed : ℚ) }
  else if 3 ≤ action ∧ action ≤ 7 then
    { e with car_speed := action - 2,
             car_velocity := 1 * ((action - 2 : ℤ) : ℚ) }
  else e

/-- The state of `step` after the counter increment, the action dispatch
and the position advance, before the collision test. -/
def stepMoved (T : TrigModel A) (e : EnvState A) (action : ℤ) : EnvState A :=
  let e1 : EnvState A := { e with steps := e.steps + 1 }
  let e2 := applyAction T e1 action
  { e2 with
    car_x := e2.car_x + e2.car_velocity * T.cos e2.car_angle
    car_y := e2.car_y + e2.car_velocity * T.sin e2.car_angle }

/-- The collision outcome of a `step` call (`check_collision` against the
advanced position). -/
def stepCollision (T : TrigModel A) (e : EnvState A) (action : ℤ) : Bool :=
  check_collision (stepMoved T e action)

/-- The state of `step` after the collision test: on collision the
position is put back to the pre-step value `(old_x, old_y)`. -/
def stepPositioned (T : TrigModel A) (e : EnvState A) (action : ℤ) : EnvState A :=
  if stepCollision T e action then
    { stepMoved T e action with car_x := e.car_x, car_y := e.car_y }
  else stepMoved T e action

/-- `distance_moved = math.sqrt((car_x - old_x)**2 + (car_y - old_y)**2)`,
computed from the post-revert position. -/
def stepDistanceMoved (T : TrigModel A) (e : EnvState A) (action : ℤ) : ℚ :=
  T.sqrt (((stepPositioned T e action).car_x - e.car_x) ^ 2 +
          ((stepPositioned T e action).car_y - e.car_y) ^ 2)

/-- The state at the end of `step`: total distance accumulated and the
consecutive low-motion counter incremented (when `distance_moved < 0.5`)
or reset to zero. -/
def stepPost (T : TrigModel A) (e : EnvState A) (action : ℤ) : EnvState A :=
  let p := stepPositioned T e action
  let p2 : EnvState A :=
    { p with total_distance := p.total_distance + stepDistanceMoved T e action }
  if stepDistanceMoved T e action < 0.5 then
    { p2 with stationary_steps := p2.stationary_steps + 1 }
  else
    { p2 with stationary_steps := 0 }

/-- Python `min` over a nonempty list (`min(self.get_distances())`). -/
def listMin : List ℚ → ℚ
  | [] => 0
  | x :: xs => xs.foldl min x

/-- `min_distance = min(self.get_distances())`, read on the post-step
state. -/
def stepMinSensor (T : TrigModel A) (e : EnvState A) (action : ℤ) : ℚ :=
  listMin (get_distances T (stepPost T e action))

/-- The reward block of `step` (lines 155–176), in source order. -/
def stepReward (T : TrigModel A) (e : EnvState A) (action : ℤ) : ℚ :=
  let distance_moved := stepDistanceMoved T e action
  let reward0 : ℚ := 0
  let reward1 := reward0 + distance_moved * 0.1
  let min_distance := stepMinSensor T e action
  let reward2 :=
    if min_distance < 0.2 then reward1 - (0.2 - min_distance) * 5 else reward1
  let reward3 := if stepCollision T e action then reward2 - 10 else reward2
  let reward4 :=
    if (stepPost T e action).stationary_steps > 10 then reward3 - 1 else reward3
  if (stepPost T e action).car_speed ≥ 3 then reward4 + 0.1 else reward4

/-- `done = collision or self.steps > 1000 or self.stationary_steps > 50`. -/
def stepDone (T : TrigModel A) (e : EnvState A) (action : ℤ) : Bool :=
  stepCollision T e action ||
    decide ((stepPost T e action).steps > 1000) ||
    decide ((stepPost T e action).stationary_steps > 50)

/-- The value returned by `step`: the new state together with
`(get_state(), reward, done, {})`; the empty info dict is not modelled. -/
structure StepResult (A : Type) where
  state : EnvState A
  obs : List ℚ
  reward : ℚ
  done : Bool

/-- The whole body of `step` (which always reaches its `return`). -/
def stepBody (T : TrigModel A) (e : EnvState A) (action : ℤ) : StepResult A :=
  { state := stepPost T e action
    obs := get_state T (stepPost T e action)
    reward := stepReward T e action
    done := stepDone T e action }

/-- `step` as a Python call: it either returns or raises.  The body of
`CarSimulatorEnv.step` contains no raise path for any integer action, so
the embedding always returns `Except.ok`. -/
def step (T : TrigModel A) (e : EnvState A) (action : ℤ) :
    Except String (StepResult A) :=
  Except.ok (stepBody T e action)

/-- The deployment action map of `ArduinoAIController.__init__`
(`arduino_controller.py`, lines 28–39), a dict lookup. -/
def action_map (action : ℤ) : Option Char :=
  if action = 0 then some 'W'
  else if action = 1 then some 'A'
  else if action = 2 then some 'D'
  else if action = 3 then some 'S'
  else if action = 4 then some '1'
  else if action = 5 then some '2'
  else if action = 6 then some '3'
  else if action = 7 then some '4'
  else if action = 8 then some '5'
  else none

/-- The speed tracking of `ArduinoAIController.send_command`: a command
in `'12345'` sets the current speed to its digit value, any other command
leaves it unchanged. -/
def sendCommandSpeed (command : Char) (current : ℤ) : ℤ :=
  if command = '1' then 1
  else if command = '2' then 2
  else if command = '3' then 3
  else if command = '4' then 4
  else if command = '5' then 5
  else current

/-- A concrete computable trigonometry oracle, used to evaluate the
environment on explicit inputs: every angle has cosine `1` and sine `0`
(a car that always points along the positive x axis); the square root is
Mathlib's exact rational square root, correct on squares. -/
def trivTrig : TrigModel ℚ where
  cos := fun _ => 1
  sin := fun _ => 0
  sqrt := Rat.sqrt
  add := (· + ·)
  sub := (· - ·)
  ofRat := id
  piDiv3 := 0
  pyth := by intro a; norm_num
  sqrt_sq := by intro q h; rw [Rat.sqrt_eq, abs_of_nonneg h]

/-- Convenience builder for concrete environment states. -/
def mkEnv (x y : ℚ) (speed : ℤ) (obs : List Rect) : EnvState ℚ :=
  { car_x := x, car_y := y, car_angle := 0, car_speed := speed,
    car_velocity := 0, steps := 0, total_distance := 0,
    last_position := (x, y), stationary_steps := 0, obstacles := obs }

/-- True when a Python call returned a value rather than raising. -/
def returnedNormally {α : Type} : Except String α → Bool
  | Except.ok _ => true
  | Except.error _ => false

/-- The action dispatch reads none of the episode counters: its heading,
speed and velocity results are unchanged by the `steps` increment that
precedes it in `step`. -/
theorem applyAction_fields_steps (T : TrigModel A) (e : EnvState A) (a : ℤ) (n : ℕ) :
    (applyAction T { e with steps := n } a).car_angle = (applyAction T e a).car_angle ∧
    (applyAction T { e with steps := n } a).car_speed = (applyAction T e a).car_speed ∧
    (applyAction T { e with steps := n } a).car_velocity = (applyAction T e a).car_velocity := by
  unfold applyAction
  split_ifs <;> exact ⟨rfl, rfl, rfl⟩

/-- An action index outside `0..7` matches no branch of the dispatch. -/
theorem applyAction_invalid (T : TrigModel A) (e : EnvState A) (a : ℤ)
    (h : a < 0 ∨ 7 < a) : applyAction T e a = e := by
  unfold applyAction
  split_ifs <;> first | rfl | omega

theorem stepPost_car_angle (T : TrigModel A) (e : EnvState A) (a : ℤ) :
    (stepPost T e a).car_angle = (applyAction T e a).car_angle := by
  have hA := applyAction_fields_steps T e a (e.steps + 1)
  simp only [stepPost, stepPositioned, stepMoved]
  split_ifs <;> exact hA.1

theorem stepPost_car_speed (T : TrigModel A) (e : EnvState A) (a : ℤ) :
    (stepPost T e a).car_speed = (applyAction T e a).car_speed := by
  have hA := applyAction_fields_steps T e a (e.steps + 1)
  simp only [stepPost, stepPositioned, stepMoved]
  split_ifs <;> exact hA.2.1

theorem stepPost_car_velocity (T : TrigModel A) (e : EnvState A) (a : ℤ) :
    (stepPost T e a).car_velocity = (applyAction T e a).car_velocity := by
  have hA := applyAction_fields_steps T e a (e.steps + 1)
  simp only [stepPost, stepPositioned, stepMoved]
  split_ifs <;> exact hA.2.2

theorem stepPost_steps (T : TrigModel A) (e : EnvState A) (a : ℤ) :
    (stepPost T e a).steps = e.steps + 1 := by
  have hA : ∀ e2 : EnvState A, (applyAction T e2 a).steps = e2.steps := by
    intro e2; unfold applyAction; split_ifs <;> rfl
  simp only [stepPost, stepPositioned, stepMoved]
  split_ifs <;> simp [hA]

/-- C1: for a valid action, the returned done flag is true iff a collision
occurred during the step, or the post-step step count exceeds 1000, or the
post-step consecutive low-motion counter exceeds 50. -/
theorem step_done_iff (T : TrigModel A) (e : EnvState A) (action : ℤ)
    (h0 : 0 ≤ action) (h7 : action ≤ 7) :
    ((stepBody T e action).done = true ↔
      (stepCollision T e action = true ∨
        (stepBody T e action).state.steps > 1000 ∨
        (stepBody T e action).state.stationary_steps > 50)) := by
  simp [stepBody, stepDone, Bool.or_eq_true, decide_eq_true_eq, or_assoc]

/-- Witness for `step_done_iff` at a concrete valid action. -/
theorem step_done_iff_witness :
    (0 : ℤ) ≤ 0 ∧ (0 : ℤ) ≤ 7 ∧
    ((stepBody trivTrig (mkEnv 400 300 3 []) 0).done = true ↔
      (stepCollision trivTrig (mkEnv 400 300 3 []) 0 = true ∨
        (stepBody trivTrig (mkEnv 400 300 3 []) 0).state.steps > 1000 ∨
        (stepBody trivTrig (mkEnv 400 300 3 []) 0).state.stationary_steps > 50)) :=
  ⟨by norm_num, by norm_num,
    step_done_iff trivTrig (mkEnv 400 300 3 []) 0 (by norm_num) (by norm_num)⟩

/-- C2: on a colliding step the position is reverted, so the returned
state's position equals the pre-step position. -/
theorem collision_reverts_position (T : TrigModel A) (e : EnvState A) (action : ℤ)
    (h : stepCollision T e action = true) :
    (stepBody T e action).state.car_x = e.car_x ∧
    (stepBody T e action).state.car_y = e.car_y := by
  simp only [stepBody, stepPost, stepPositioned, h]
  split_ifs <;> simp

/-- Witness for `collision_reverts_position`: driving straight into the
right arena wall. -/
theorem collision_reverts_position_witness :
    stepCollision trivTrig (mkEnv 780 300 5 []) 0 = true ∧
    (stepBody trivTrig (mkEnv 780 300 5 []) 0).state.car_x = (mkEnv 780 300 5 []).car_x ∧
    (stepBody trivTrig (mkEnv 780 300 5 []) 0).state.car_y = (mkEnv 780 300 5 []).car_y :=
  ⟨by with_unfolding_all rfl,
    (collision_reverts_position trivTrig (mkEnv 780 300 5 []) 0
      (by with_unfolding_all rfl)).1,
    (collision_reverts_position trivTrig (mkEnv 780 300 5 []) 0
      (by with_unfolding_all rfl)).2⟩

/-- C10: a colliding step rolls back only the position; the heading and
speed level produced by the action dispatch are retained. -/
theorem collision_retains_heading_speed (T : TrigModel A) (e : EnvState A)
    (action : ℤ) (h : stepCollision T e action = true) :
    (stepBody T e action).state.car_x = e.car_x ∧
    (stepBody T e action).state.car_y = e.car_y ∧
    (stepBody T e action).state.car_angle = (applyAction T e action).car_angle ∧
    (stepBody T e action).state.car_speed = (applyAction T e action).car_speed := by
  refine ⟨?_, ?_, ?_, ?_⟩
  · simp only [stepBody, stepPost, stepPositioned, h]
    split_ifs <;> simp
  · simp only [stepBody, stepPost, stepPositioned, h]
    split_ifs <;> simp
  · exact stepPost_car_angle T e action
  · exact stepPost_car_speed T e action

/-- Witness for `collision_retains_heading_speed`: a rotate-left command
driven into the right arena wall keeps its heading change. -/
theorem collision_retains_heading_speed_witness :
    stepCollision trivTrig (mkEnv 784 300 5 []) 1 = true ∧
    (stepBody trivTrig (mkEnv 784 300 5 []) 1).state.car_x = (mkEnv 784 300 5 []).car_x ∧
    (stepBody trivTrig (mkEnv 784 300 5 []) 1).state.car_angle =
      (applyAction trivTrig (mkEnv 784 300 5 []) 1).car_angle ∧
    (stepBody trivTrig (mkEnv 784 300 5 []) 1).state.car_speed =
      (applyAction trivTrig (mkEnv 784 300 5 []) 1).car_speed :=
  ⟨by with_unfolding_all rfl,
    (collision_retains_heading_speed trivTrig (mkEnv 784 300 5 []) 1
      (by with_unfolding_all rfl)).1,
    (collision_retains_heading_speed trivTrig (mkEnv 784 300 5 []) 1
      (by with_unfolding_all rfl)).2.2.1,
    (collision_retains_heading_speed trivTrig (mkEnv 784 300 5 []) 1
      (by with_unfolding_all rfl)).2.2.2⟩

/-- C5 counterexample: at the out-of-range action index `8` the call to
`step` returns normally (it does not raise). -/
theorem invalid_action_returns_cex :
    returnedNormally (step trivTrig (mkEnv 400 300 3 []) 8) = true := rfl

/-- C5 amended: an out-of-range action index does not make `step` fail;
the dispatch applies no command (heading, speed level and velocity are
unchanged) and the step otherwise proceeds normally (the step counter is
incremented). -/
theorem invalid_action_no_failure (T : TrigModel A) (e : EnvState A)
    (action : ℤ) (h : action < 0 ∨ 7 < action) :
    step T e action = Except.ok (stepBody T e action) ∧
    (stepBody T e action).state.car_angle = e.car_angle ∧
    (stepBody T e action).state.car_speed = e.car_speed ∧
    (stepBody T e action).state.car_velocity = e.car_velocity ∧
    (stepBody T e action).state.steps = e.steps + 1 := by
  have hinv : applyAction T { e with steps := e.steps + 1 } action =
      { e with steps := e.steps + 1 } := applyAction_invalid T _ action h
  refine ⟨rfl, ?_, ?_, ?_, stepPost_steps T e action⟩
  · rw [show (stepBody T e action).state = stepPost T e action from rfl,
      stepPost_car_angle, applyAction_invalid T e action h]
  · rw [show (stepBody T e action).state = stepPost T e action from rfl,
      stepPost_car_speed, applyAction_invalid T e action h]
  · rw [show (stepBody T e action).state = stepPost T e action from rfl,
      stepPost_car_velocity, applyAction_invalid T e action h]

/-- Witness for `invalid_action_no_failure` at action index `8`. -/
theorem invalid_action_no_failure_witness :
    ((8 : ℤ) < 0 ∨ (7 : ℤ) < 8) ∧
    (step trivTrig (mkEnv 400 300 3 []) 8 =
      Except.ok (stepBody trivTrig (mkEnv 400 300 3 []) 8) ∧
    (stepBody trivTrig (mkEnv 400 300 3 []) 8).state.car_angle =
      (mkEnv 400 300 3 []).car_angle ∧
    (stepBody trivTrig (mkEnv 400 300 3 []) 8).state.car_speed =
      (mkEnv 400 300 3 []).car_speed ∧
    (stepBody trivTrig (mkEnv 400 300 3 []) 8).state.car_velocity =
      (mkEnv 400 300 3 []).car_velocity ∧
    (stepBody trivTrig (mkEnv 400 300 3 []) 8).state.steps =
      (mkEnv 400 300 3 []).steps + 1) :=
  ⟨Or.inr (by norm_num),
    invalid_action_no_failure trivTrig (mkEnv 400 300 3 []) 8 (Or.inr (by norm_num))⟩

/-- C9: `reset` recentres the car at the arena centre with the drawn
heading, speed level 3 and velocity 0, zeroes the episode counters,
returns `get_state` of the new state, and leaves the obstacle set
untouched; obstacles are produced only by `generate_obstacles`, which
`initEnv` (construction) calls and `reset` does not. -/
theorem reset_spec (T : TrigModel A) (e : EnvState A) (heading : A) :
    (reset T e heading).1.car_x = ((width / 2 : ℤ) : ℚ) ∧
    (reset T e heading).1.car_y = ((height / 2 : ℤ) : ℚ) ∧
    (reset T e heading).1.car_angle = heading ∧
    (reset T e heading).1.car_speed = 3 ∧
    (reset T e heading).1.car_velocity = 0 ∧
    (reset T e heading).1.steps = 0 ∧
    (reset T e heading).1.total_distance = 0 ∧
    (reset T e heading).1.stationary_steps = 0 ∧
    (reset T e heading).2 = get_state T (reset T e heading).1 ∧
    (reset T e heading).1.obstacles = e.obstacles ∧
    (∀ (rects : List Rect) (h2 : A),
      (initEnv T rects h2).1.obstacles = generate_obstacles rects) :=
  ⟨rfl, rfl, rfl, rfl, rfl, rfl, rfl, rfl, rfl, rfl, fun _ _ => rfl⟩

/-- C4: `cast_ray` never returns more than the maximum sensor range, and
returns exactly the maximum when no probe of the march hits an obstacle
or the boundary within range. -/
theorem cast_ray_bounds (T : TrigModel A) (e : EnvState A) (angle : A) :
    cast_ray T e angle ≤ sensor_range ∧
    ((∀ d, d < sensor_range → 1 ≤ d → rayHit T e angle d = false) →
      cast_ray T e angle = sensor_range) := by
  constructor
  · unfold cast_ray
    cases h : (List.range' 1 (sensor_range - 1)).find? (fun dist => rayHit T e angle dist) with
    | none => simp
    | some d =>
      have hd := List.mem_range'_1.mp (List.mem_of_find?_eq_some h)
      simp only [Option.getD_some]
      unfold sensor_range at hd ⊢
      omega
  · intro hall
    unfold cast_ray
    have hnone : (List.range' 1 (sensor_range - 1)).find?
        (fun dist => rayHit T e angle dist) = none := by
      apply List.find?_eq_none.mpr
      intro x hx
      have hx2 := List.mem_range'_1.mp hx
      have : rayHit T e angle x = false := by
        apply hall x ?_ hx2.1
        unfold sensor_range at hx2 ⊢
        omega
      simp [this]
    rw [hnone]
    rfl

/-- Witness for `cast_ray_bounds`: from the arena centre along the
positive x axis with no obstacles, every probe misses and the ray reads
the full range. -/
theorem cast_ray_bounds_witness :
    (∀ d, d < sensor_range → 1 ≤ d →
      rayHit trivTrig (mkEnv 400 300 3 []) 0 d = false) ∧
    cast_ray trivTrig (mkEnv 400 300 3 []) 0 = sensor_range :=
  have h : ∀ d, d < sensor_range → 1 ≤ d →
      rayHit trivTrig (mkEnv 400 300 3 []) 0 d = false :=
    of_decide_eq_true (by with_unfolding_all rfl)
  ⟨h, (cast_ray_bounds trivTrig (mkEnv 400 300 3 []) 0).2 h⟩

/-- C3: on a step with no collision, post-step low-motion counter at most
10 and speed level below 3, the reward is exactly the movement term minus
the proximity penalty. -/
theorem reward_decomposition (T : TrigModel A) (e : EnvState A) (action : ℤ)
    (hc : stepCollision T e action = false)
    (hst : (stepPost T e action).stationary_steps ≤ 10)
    (hsp : (stepPost T e action).car_speed < 3) :
    stepReward T e action =
      stepDistanceMoved T e action * 0.1 -
        (if stepMinSensor T e action < 0.2
          then (0.2 - stepMinSensor T e action) * 5 else 0) := by
  simp only [stepReward, hc, Bool.false_eq_true, if_false]
  rw [if_neg (by omega), if_neg (by omega)]
  split_ifs with h <;> ring

/-- Witness for `reward_decomposition`: a speed-select step near the right
wall, colliding with nothing. -/
theorem reward_decomposition_witness :
    stepCollision trivTrig (mkEnv 783 300 2 []) 3 = false ∧
    (stepPost trivTrig (mkEnv 783 300 2 []) 3).stationary_steps ≤ 10 ∧
    (stepPost trivTrig (mkEnv 783 300 2 []) 3).car_speed < 3 ∧
    stepReward trivTrig (mkEnv 783 300 2 []) 3 =
      stepDistanceMoved trivTrig (mkEnv 783 300 2 []) 3 * 0.1 -
        (if stepMinSensor trivTrig (mkEnv 783 300 2 []) 3 < 0.2
          then (0.2 - stepMinSensor trivTrig (mkEnv 783 300 2 []) 3) * 5 else 0) :=
  ⟨by with_unfolding_all rfl,
    of_decide_eq_true (by with_unfolding_all rfl),
    of_decide_eq_true (by with_unfolding_all rfl),
    reward_decomposition trivTrig (mkEnv 783 300 2 []) 3
      (by with_unfolding_all rfl)
      (of_decide_eq_true (by with_unfolding_all rfl))
      (of_decide_eq_true (by with_unfolding_all rfl))⟩

/-- The components of `get_state` all lie in `[0, 1]` whenever the speed
level lies in `[0, 5]`. -/
theorem get_state_bounds (T : TrigModel A) (e : EnvState A)
    (h1 : 0 ≤ e.car_speed) (h5 : e.car_speed ≤ 5) :
    ∀ q ∈ get_state T e, 0 ≤ q ∧ q ≤ 1 := by
  intro q hq
  simp only [get_state, get_distances, List.map_cons, List.map_nil,
    List.mem_append, List.mem_cons, List.not_mem_nil, or_false] at hq
  have hray : ∀ (angle : A),
      0 ≤ ((min (cast_ray T e angle) 200 : ℕ) : ℚ) / 200 ∧
      ((min (cast_ray T e angle) 200 : ℕ) : ℚ) / 200 ≤ 1 := by
    intro angle
    constructor
    · positivity
    · rw [div_le_one (by norm_num)]
      have : min (cast_ray T e angle) 200 ≤ 200 := min_le_right _ _
      exact_mod_cast this
  rcases hq with (h | h | h) | h
  · rw [h]; exact hray _
  · rw [h]; exact hray _
  · rw [h]; exact hray _
  · rw [h]
    constructor
    · apply div_nonneg _ (by norm_num)
      exact_mod_cast h1
    · rw [div_le_one (by norm_num)]
      exact_mod_cast h5

/-- C6: after `reset` every state component is in `[0, 1]` and the speed
level is in `[1, 5]`; a step with a valid action preserves both. -/
theorem state_invariants (T : TrigModel A) (e : EnvState A) (heading : A)
    (action : ℤ) :
    ((∀ q ∈ (reset T e heading).2, 0 ≤ q ∧ q ≤ 1) ∧
      1 ≤ (reset T e heading).1.car_speed ∧ (reset T e heading).1.car_speed ≤ 5) ∧
    (1 ≤ e.car_speed → e.car_speed ≤ 5 → 0 ≤ action → action ≤ 7 →
      (∀ q ∈ (stepBody T e action).obs, 0 ≤ q ∧ q ≤ 1) ∧
      1 ≤ (stepBody T e action).state.car_speed ∧
      (stepBody T e action).state.car_speed ≤ 5) := by
  have hrs : (reset T e heading).1.car_speed = 3 := rfl
  constructor
  · refine ⟨?_, by rw [hrs]; norm_num, by rw [hrs]; norm_num⟩
    have h2 : (reset T e heading).2 = get_state T (reset T e heading).1 := rfl
    rw [h2]
    exact get_state_bounds T _ (by rw [hrs]; norm_num) (by rw [hrs]; norm_num)
  · intro hs1 hs5 ha0 ha7
    have hsp : 1 ≤ (stepPost T e action).car_speed ∧
        (stepPost T e action).car_speed ≤ 5 := by
      rw [stepPost_car_speed]
      unfold applyAction
      split_ifs with h1 h2 h3 h4
      · exact ⟨hs1, hs5⟩
      · exact ⟨hs1, hs5⟩
      · exact ⟨hs1, hs5⟩
      · exact ⟨by change (1 : ℤ) ≤ action - 2; omega,
          by change action - 2 ≤ (5 : ℤ); omega⟩
      · exact ⟨hs1, hs5⟩
    have hobs : (stepBody T e action).obs = get_state T (stepPost T e action) := rfl
    refine ⟨?_, hsp.1, hsp.2⟩
    rw [hobs]
    exact get_state_bounds T _ (by omega) hsp.2

/-- Witness for `state_invariants` at a concrete valid step. -/
theorem state_invariants_witness :
    (1 : ℤ) ≤ 3 ∧ (3 : ℤ) ≤ 5 ∧ (0 : ℤ) ≤ 0 ∧ (0 : ℤ) ≤ 7 ∧
    ((∀ q ∈ (stepBody trivTrig (mkEnv 400 300 3 []) 0).obs, 0 ≤ q ∧ q ≤ 1) ∧
      1 ≤ (stepBody trivTrig (mkEnv 400 300 3 []) 0).state.car_speed ∧
      (stepBody trivTrig (mkEnv 400 300 3 []) 0).state.car_speed ≤ 5) :=
  ⟨by norm_num, by norm_num, by norm_num, by norm_num,
    (state_invariants trivTrig (mkEnv 400 300 3 []) 0 0).2
      (by decide) (by decide) (by decide) (by decide)⟩

/-- C7 counterexample: at the shared action index `4` the training
environment selects speed level `2`, but the deployment map sends the
command `'1'`, which sets speed level `1`. -/
theorem action_map_mismatch_cex :
    (applyAction trivTrig (mkEnv 400 300 3 []) 4).car_speed = 2 ∧
    action_map 4 = some '1' ∧
    sendCommandSpeed '1' 3 = 1 ∧ ¬((2 : ℤ) = 1) :=
  ⟨by with_unfolding_all rfl, by with_unfolding_all rfl,
    by with_unfolding_all rfl, by norm_num⟩

/-- C7 amended: the two mappings are offset by one index.  On the shared
indices `4..7` the deployment map sends the set-speed command for level
`index - 3` while the training dispatch selects level `index - 2`;
training's speed index `3` is deployment's backward command, which leaves
the deployment speed unchanged. -/
theorem action_map_off_by_one (T : TrigModel A) (e : EnvState A) (a : ℤ)
    (h4 : 4 ≤ a) (h7 : a ≤ 7) :
    (∃ c, action_map a = some c ∧ (∀ cur, sendCommandSpeed c cur = a - 3)) ∧
    (applyAction T e a).car_speed = a - 2 ∧
    action_map 3 = some 'S' ∧ (∀ cur, sendCommandSpeed 'S' cur = cur) := by
  refine ⟨?_, ?_, by with_unfolding_all rfl, fun cur => by with_unfolding_all rfl⟩
  · interval_cases a
    · exact ⟨'1', rfl, fun cur => by with_unfolding_all rfl⟩
    · exact ⟨'2', rfl, fun cur => by with_unfolding_all rfl⟩
    · exact ⟨'3', rfl, fun cur => by with_unfolding_all rfl⟩
    · exact ⟨'4', rfl, fun cur => by with_unfolding_all rfl⟩
  · unfold applyAction
    split_ifs with h1 h2 h3 h5 <;> first | rfl | omega

/-- Witness for `action_map_off_by_one` at index `5`. -/
theorem action_map_off_by_one_witness :
    (4 : ℤ) ≤ 5 ∧ (5 : ℤ) ≤ 7 ∧
    ((∃ c, action_map 5 = some c ∧ (∀ cur, sendCommandSpeed c cur = 5 - 3)) ∧
      (applyAction trivTrig (mkEnv 400 300 3 []) 5).car_speed = 5 - 2 ∧
      action_map 3 = some 'S' ∧ (∀ cur, sendCommandSpeed 'S' cur = cur)) :=
  ⟨by norm_num, by norm_num,
    action_map_off_by_one trivTrig (mkEnv 400 300 3 []) 5 (by norm_num) (by norm_num)⟩

/-- Repeated forward commands, as driven by the training loop. -/
def iterForward (T : TrigModel A) (e : EnvState A) : ℕ → EnvState A
  | 0 => e
  | n + 1 => (stepBody T (iterForward T e n) 0).state

/-- A non-colliding forward step adds exactly `2 × speed` to the total
distance, keeps the speed level and resets the low-motion counter. -/
theorem forward_step_effect (T : TrigModel A) (e : EnvState A)
    (hc : stepCollision T e 0 = false) (hs : 1 ≤ e.car_speed) :
    (stepPost T e 0).total_distance = e.total_distance + 2 * (e.car_speed : ℚ) ∧
    (stepPost T e 0).car_speed = e.car_speed ∧
    (stepPost T e 0).stationary_steps = 0 := by
  have hs2 : (0 : ℚ) ≤ 2 * (e.car_speed : ℚ) := by
    have h1 : (1 : ℚ) ≤ (e.car_speed : ℚ) := by exact_mod_cast hs
    linarith
  have hpos : stepPositioned T e 0 = stepMoved T e 0 := by
    simp [stepPositioned, hc]
  have hd : stepDistanceMoved T e 0 = 2 * (e.car_speed : ℚ) := by
    unfold stepDistanceMoved
    rw [hpos]
    have hx : (stepMoved T e 0).car_x - e.car_x =
        2 * (e.car_speed : ℚ) * T.cos e.car_angle := by
      simp [stepMoved, applyAction]
    have hy : (stepMoved T e 0).car_y - e.car_y =
        2 * (e.car_speed : ℚ) * T.sin e.car_angle := by
      simp [stepMoved, applyAction]
    rw [hx, hy]
    have hsq : (2 * (e.car_speed : ℚ) * T.cos e.car_angle) ^ 2 +
        (2 * (e.car_speed : ℚ) * T.sin e.car_angle) ^ 2 =
        (2 * (e.car_speed : ℚ)) * (2 * (e.car_speed : ℚ)) := by
      linear_combination (4 * (e.car_speed : ℚ) ^ 2) * T.pyth e.car_angle
    rw [hsq, T.sqrt_sq _ hs2]
  have hlt : ¬ (stepDistanceMoved T e 0 < 0.5) := by
    rw [hd]
    have h1 : (1 : ℚ) ≤ (e.car_speed : ℚ) := by exact_mod_cast hs
    norm_num
    linarith
  have htot : (stepMoved T e 0).total_distance = e.total_distance := rfl
  have hspd : (stepMoved T e 0).car_speed = e.car_speed := rfl
  refine ⟨?_, ?_, ?_⟩
  · simp only [stepPost, if_neg hlt]
    rw [hpos, htot, hd]
  · simp only [stepPost, if_neg hlt]
    rw [hpos, hspd]
  · simp only [stepPost, if_neg hlt]

/-- C8: in an arena with only the four boundary walls, `N` forward steps
with no collision accumulate exactly `N · 2 · s` of total distance at
constant speed level `s`, and no step's done flag can come from a
collision (it is equivalent to the step/low-motion limits alone). -/
theorem forward_run_distance (T : TrigModel A) (e : EnvState A) (s : ℤ) (N : ℕ)
    (hobs : e.obstacles = generate_obstacles [])
    (hsp : e.car_speed = s) (hs1 : 1 ≤ s) (htot : e.total_distance = 0)
    (hnc : ∀ i, i < N → stepCollision T (iterForward T e i) 0 = false) :
    (iterForward T e N).total_distance = (N : ℚ) * (2 * (s : ℚ)) ∧
    (iterForward T e N).car_speed = s ∧
    (∀ i, i < N → ((stepBody T (iterForward T e i) 0).done = true ↔
      ((stepBody T (iterForward T e i) 0).state.steps > 1000 ∨
        (stepBody T (iterForward T e i) 0).state.stationary_steps > 50))) := by
  have main : ∀ M, M ≤ N →
      (iterForward T e M).total_distance = (M : ℚ) * (2 * (s : ℚ)) ∧
      (iterForward T e M).car_speed = s := by
    intro M
    induction M with
    | zero =>
      intro _
      refine ⟨?_, hsp⟩
      simp [iterForward, htot]
    | succ k ih =>
      intro hk
      have ihk := ih (by omega)
      have hck := hnc k (by omega)
      have hstep := forward_step_effect T (iterForward T e k) hck
        (by rw [ihk.2]; exact hs1)
      have hiter : iterForward T e (k + 1) = stepPost T (iterForward T e k) 0 := rfl
      constructor
      · rw [hiter, hstep.1, ihk.1, ihk.2]
        push_cast
        ring
      · rw [hiter, hstep.2.1, ihk.2]
  refine ⟨(main N le_rfl).1, (main N le_rfl).2, ?_⟩
  intro i hi
  have hci := hnc i hi
  simp [stepBody, stepDone, hci, Bool.or_eq_true, decide_eq_true_eq, or_assoc]

/-- Witness for `forward_run_distance`: two forward steps from the centre
of the walls-only arena at speed level 3. -/
theorem forward_run_distance_witness :
    (mkEnv 400 300 3 (generate_obstacles [])).obstacles = generate_obstacles [] ∧
    (mkEnv 400 300 3 (generate_obstacles [])).car_speed = 3 ∧
    (1 : ℤ) ≤ 3 ∧
    (mkEnv 400 300 3 (generate_obstacles [])).total_distance = 0 ∧
    (∀ i, i < 2 → stepCollision trivTrig
      (iterForward trivTrig (mkEnv 400 300 3 (generate_obstacles [])) i) 0 = false) ∧
    (iterForward trivTrig (mkEnv 400 300 3 (generate_obstacles [])) 2).total_distance =
      ((2 : ℕ) : ℚ) * (2 * ((3 : ℤ) : ℚ)) :=
  have hnc : ∀ i, i < 2 → stepCollision trivTrig
      (iterForward trivTrig (mkEnv 400 300 3 (generate_obstacles [])) i) 0 = false :=
    of_decide_eq_true (by with_unfolding_all rfl)
  ⟨rfl, rfl, by norm_num, rfl, hnc,
    (forward_run_distance trivTrig (mkEnv 400 300 3 (generate_obstacles [])) 3 2
      rfl rfl (by norm_num) rfl hnc).1⟩

end CarSim
